import Mathlib

/-!
Shallow embedding of the DataLathe JavaScript client's result-consumption
core: the `DatalatheResultSet` scrollable cursor (src/results/result-set.ts)
and the streaming JSON decode path (`parseJsonStream` in src/client.ts),
together with theorems settling the specification's claims about them.

JS conventions used by the embedding:
- a stored cell `string | null` is `Option String` (`none` = JS `null`);
- reading `row[i]` past the row's end yields JS `undefined`, a third value,
  so a *read* cell is the three-valued `CellVal`;
- JS numbers produced by `parseInt` are modelled exactly (sign + decimal
  digit prefix, `NaN` when no digit); the IEEE-754 double produced by
  `parseFloat` is kept as a symbolic constructor carrying the source text,
  since floating-point arithmetic is outside the scope of the claims
  (only the null-cell path, which returns the number `0`, is ever compared);
- thrown exceptions are `Except` errors; methods that may both mutate the
  instance and throw return `(Except JsError α) × DatalatheResultSet`, the
  state component recording every field assignment made before the throw.
-/

namespace Datalathe

/-- Decidable equality for `Except`, so that concrete method results can be
evaluated in witnesses. -/
instance {ε α : Type} [DecidableEq ε] [DecidableEq α] :
    DecidableEq (Except ε α) := fun x y =>
  match x, y with
  | .ok a, .ok b =>
      if h : a = b then .isTrue (by rw [h]) else .isFalse (by simp [h])
  | .error a, .error b =>
      if h : a = b then .isTrue (by rw [h]) else .isFalse (by simp [h])
  | .ok _, .error _ => .isFalse (by simp)
  | .error _, .ok _ => .isFalse (by simp)

/-- A schema entry from the wire: column name and declared type tag. -/
structure SchemaField where
  name : String
  data_type : String
deriving Repr, DecidableEq

/-- A stored cell: JS `string | null`; `none` is JS `null`. -/
abbrev Cell := Option String

/-- The result of reading `data[r][c]` in JS: the stored string, the stored
`null`, or `undefined` when `c` is past the end of the row. -/
inductive CellVal where
  | null
  | undef
  | str (s : String)
deriving Repr, DecidableEq

/-- A JS number as produced by the accessors: an exact integer (also the
literal `0` returned on null cells), `NaN`, or the symbolic IEEE-754 double
`parseFloat` makes from the given text. -/
inductive JSNum where
  | int (i : Int)
  | nan
  | parsedFloat (s : String)
deriving Repr, DecidableEq

/-- The value domain of `getObject` (JS `string | number | boolean | null`,
plus `undefined` which leaks through on a ragged row). -/
inductive JSValue where
  | nullV
  | undefV
  | strV (s : String)
  | numV (n : JSNum)
  | boolV (b : Bool)
deriving Repr, DecidableEq

/-- The exceptions the result-set methods can throw. -/
inductive JsError where
  | noCurrentRow
  | invalidColumnIndex (idx : Int)
  | columnNotFound (label : String)
  | typeError
deriving Repr, DecidableEq

/-- Value of a list of decimal digit characters. -/
def digitsVal (cs : List Char) : Int :=
  cs.foldl (fun a c => a * 10 + ((c.toNat - '0'.toNat : Nat) : Int)) 0

/-- JS `parseInt(s, 10)`: skip leading whitespace, optional sign, then the
longest prefix of decimal digits; `NaN` when there is no digit. -/
def parseIntJS (s : String) : JSNum :=
  let cs := s.toList.dropWhile Char.isWhitespace
  let signed : Int × List Char :=
    match cs with
    | '-' :: rest => (-1, rest)
    | '+' :: rest => (1, rest)
    | _ => (1, cs)
  let digits := signed.2.takeWhile Char.isDigit
  if digits.isEmpty then .nan else .int (signed.1 * digitsVal digits)

/-- JS `parseFloat(s)`: the IEEE-754 double is kept symbolic (its numeric
value is never needed by the claims; identical texts give identical values). -/
def parseFloatJS (s : String) : JSNum :=
  .parsedFloat s

/-- JS `toLowerCase()`, modelled character-wise (the names and literals in
play are ASCII, where simple lowering agrees with JS). -/
def toLowerJS (s : String) : String :=
  ⟨s.data.map Char.toLower⟩

/-- JS object property assignment `obj[k] = v`: overwrite in place when the
key already exists (JS keeps first-insertion order), else append. -/
def jsAssign (obj : List (String × JSValue)) (k : String) (v : JSValue) :
    List (String × JSValue) :=
  match obj with
  | [] => [(k, v)]
  | (k', v') :: rest =>
      if k' == k then (k, v) :: rest else (k', v') :: jsAssign rest k v

/-- A column reference: 1-based index or name (`column: number | string`). -/
inductive Column where
  | idx (i : Int)
  | name (s : String)
deriving Repr, DecidableEq

/-- One response entry (`ReportResultEntry` in src/types.ts). The `result`
and `data` row fields are modelled with explicit presence: the outer
`Option` is field presence at runtime (`none` = absent), the inner is JSON
nullability (`none` = the field holds `null`). -/
structure ReportResultEntry where
  idx : String
  result : Option (Option (List (List Cell)))
  data : Option (Option (List (List Cell)))
  error : Option String
  schema : Option (List SchemaField)
deriving Repr, DecidableEq

/-- The cursor state: the fields of class `DatalatheResultSet`. -/
structure DatalatheResultSet where
  data : List (List Cell)
  schema : List SchemaField
  currentRow : Int
  wasNullFlag : Bool
deriving Repr, DecidableEq

namespace DatalatheResultSet

/-- The constructor: `this.data = result.result ?? result.data ?? []` (JS
`??` falls through on `null` and on an absent field alike) and
`this.schema = result.schema ?? []`, with `currentRow = -1` and
`_wasNull = false` from the field initialisers. -/
def fromEntry (entry : ReportResultEntry) : DatalatheResultSet :=
  { data :=
      match entry.result with
      | some (some g) => g
      | _ =>
          match entry.data with
          | some (some g) => g
          | _ => []
    schema := match entry.schema with | some s => s | none => []
    currentRow := -1
    wasNullFlag := false }

/-- `get rowCount()`. -/
def rowCount (rs : DatalatheResultSet) : Nat :=
  rs.data.length

/-- `next()`: `return ++this.currentRow < this.data.length`. -/
def next (rs : DatalatheResultSet) : Bool × DatalatheResultSet :=
  (decide (rs.currentRow + 1 < (rs.data.length : Int)),
   { rs with currentRow := rs.currentRow + 1 })

/-- `previous()`. -/
def previous (rs : DatalatheResultSet) : Bool × DatalatheResultSet :=
  if rs.currentRow ≤ 0 then (false, rs)
  else (true, { rs with currentRow := rs.currentRow - 1 })

/-- `first()`. -/
def first (rs : DatalatheResultSet) : Bool × DatalatheResultSet :=
  if rs.data.length = 0 then (false, rs)
  else (true, { rs with currentRow := 0 })

/-- `last()`. -/
def last (rs : DatalatheResultSet) : Bool × DatalatheResultSet :=
  if rs.data.length = 0 then (false, rs)
  else (true, { rs with currentRow := (rs.data.length : Int) - 1 })

/-- `beforeFirst()`. -/
def beforeFirst (rs : DatalatheResultSet) : DatalatheResultSet :=
  { rs with currentRow := -1 }

/-- `afterLast()`. -/
def afterLast (rs : DatalatheResultSet) : DatalatheResultSet :=
  { rs with currentRow := (rs.data.length : Int) }

/-- `absolute(row)`: negative rows are recomputed as
`this.data.length + row + 1`; a resolved row outside `[1, rowCount]` parks
the cursor at after-last and returns false. -/
def absolute (rs : DatalatheResultSet) (row : Int) : Bool × DatalatheResultSet :=
  let row2 := if row < 0 then (rs.data.length : Int) + row + 1 else row
  if row2 < 1 ∨ row2 > (rs.data.length : Int) then
    (false, { rs with currentRow := (rs.data.length : Int) })
  else
    (true, { rs with currentRow := row2 - 1 })

/-- `relative(rows)`: `return this.absolute(this.currentRow + 1 + rows)`. -/
def relative (rs : DatalatheResultSet) (rows : Int) : Bool × DatalatheResultSet :=
  rs.absolute (rs.currentRow + 1 + rows)

/-- `isBeforeFirst()`. -/
def isBeforeFirst (rs : DatalatheResultSet) : Bool :=
  decide (rs.data.length > 0) && decide (rs.currentRow = -1)

/-- `isAfterLast()`. -/
def isAfterLast (rs : DatalatheResultSet) : Bool :=
  decide (rs.data.length > 0) && decide (rs.currentRow ≥ (rs.data.length : Int))

/-- `isFirst()`. -/
def isFirst (rs : DatalatheResultSet) : Bool :=
  decide (rs.data.length > 0) && decide (rs.currentRow = 0)

/-- `isLast()`. -/
def isLast (rs : DatalatheResultSet) : Bool :=
  decide (rs.data.length > 0) && decide (rs.currentRow = (rs.data.length : Int) - 1)

/-- `getRow()`: 1-based row number of a valid row, else 0. -/
def getRow (rs : DatalatheResultSet) : Int :=
  if rs.currentRow < 0 ∨ rs.currentRow ≥ (rs.data.length : Int) then 0
  else rs.currentRow + 1

/-- `findColumn(columnLabel)`: first case-insensitive name match, 1-based;
throws `Column not found: <label>` when there is none. -/
def findColumn (rs : DatalatheResultSet) (columnLabel : String) :
    Except JsError Int :=
  match rs.schema.findIdx? (fun s => toLowerJS s.name == toLowerJS columnLabel) with
  | none => .error (.columnNotFound columnLabel)
  | some i => .ok ((i : Int) + 1)

/-- `resolveColumn(column)`. -/
def resolveColumn (rs : DatalatheResultSet) (column : Column) :
    Except JsError Int :=
  match column with
  | .idx i => .ok i
  | .name s => rs.findColumn s

/-- Reading index `i` (0-based) from a JS array of nullable strings. -/
def cellVal (row : List Cell) (i : Nat) : CellVal :=
  match row.get? i with
  | none => .undef
  | some none => .null
  | some (some s) => .str s

/-- `getValue(columnIndex)`: throws `No current row` off-grid and
`Invalid column index` outside `[1, schema.length]`, otherwise reads
`this.data[this.currentRow][columnIndex - 1]`. -/
def getValue (rs : DatalatheResultSet) (columnIndex : Int) :
    Except JsError CellVal :=
  if rs.currentRow < 0 ∨ rs.currentRow ≥ (rs.data.length : Int) then
    .error .noCurrentRow
  else if columnIndex < 1 ∨ columnIndex > (rs.schema.length : Int) then
    .error (.invalidColumnIndex columnIndex)
  else
    .ok (cellVal (rs.data.getD rs.currentRow.toNat []) (columnIndex - 1).toNat)

/-- `getString(column)`. -/
def getString (rs : DatalatheResultSet) (column : Column) :
    (Except JsError CellVal) × DatalatheResultSet :=
  match rs.resolveColumn column with
  | .error e => (.error e, rs)
  | .ok ci =>
      match rs.getValue ci with
      | .error e => (.error e, rs)
      | .ok v => (.ok v, { rs with wasNullFlag := v == .null })

/-- `getInt(column)`: `value === null ? 0 : parseInt(value, 10)`; an
`undefined` cell is coerced to the text `"undefined"` by `parseInt`. -/
def getInt (rs : DatalatheResultSet) (column : Column) :
    (Except JsError JSNum) × DatalatheResultSet :=
  match rs.resolveColumn column with
  | .error e => (.error e, rs)
  | .ok ci =>
      match rs.getValue ci with
      | .error e => (.error e, rs)
      | .ok v =>
          (.ok (match v with
                | .null => .int 0
                | .undef => parseIntJS "undefined"
                | .str s => parseIntJS s),
           { rs with wasNullFlag := v == .null })

/-- `getFloat(column)`: `value === null ? 0 : parseFloat(value)`. -/
def getFloat (rs : DatalatheResultSet) (column : Column) :
    (Except JsError JSNum) × DatalatheResultSet :=
  match rs.resolveColumn column with
  | .error e => (.error e, rs)
  | .ok ci =>
      match rs.getValue ci with
      | .error e => (.error e, rs)
      | .ok v =>
          (.ok (match v with
                | .null => .int 0
                | .undef => parseFloatJS "undefined"
                | .str s => parseFloatJS s),
           { rs with wasNullFlag := v == .null })

/-- `getDouble(column)`: `return this.getFloat(column)`. -/
def getDouble (rs : DatalatheResultSet) (column : Column) :
    (Except JsError JSNum) × DatalatheResultSet :=
  rs.getFloat column

/-- Result of `value !== null && value.toLowerCase() === "true"`; on an
`undefined` cell, `value.toLowerCase()` throws `TypeError`. -/
def booleanResult (v : CellVal) : Except JsError Bool :=
  match v with
  | .null => .ok false
  | .undef => .error .typeError
  | .str s => .ok (toLowerJS s == "true")

/-- `getBoolean(column)`. The `_wasNull = value === null` assignment in the
source has already run when the `TypeError` is thrown, so the returned
state carries the updated flag in the error case too. -/
def getBoolean (rs : DatalatheResultSet) (column : Column) :
    (Except JsError Bool) × DatalatheResultSet :=
  match rs.resolveColumn column with
  | .error e => (.error e, rs)
  | .ok ci =>
      match rs.getValue ci with
      | .error e => (.error e, rs)
      | .ok v => (booleanResult v, { rs with wasNullFlag := v == .null })

/-- The value `getObject` produces from the read cell and the column's
declared `data_type`: `null` short-circuits before the `switch`; otherwise
the `Int*` branches run `parseInt`, the `Float*` branches `parseFloat`, the
`Boolean` branch compares the lowered text to `"true"` (throwing `TypeError`
on an `undefined` cell), and the default branch returns the value as is. -/
def objectResult (v : CellVal) (dataType : String) : Except JsError JSValue :=
  match v with
  | .null => .ok .nullV
  | other =>
      match dataType with
      | "Int32" | "Int64" =>
          .ok (.numV (match other with
                      | .str s => parseIntJS s
                      | _ => parseIntJS "undefined"))
      | "Float32" | "Float64" =>
          .ok (.numV (match other with
                      | .str s => parseFloatJS s
                      | _ => parseFloatJS "undefined"))
      | "Boolean" =>
          (match other with
           | .str s => .ok (.boolV (toLowerJS s == "true"))
           | _ => .error .typeError)
      | _ =>
          .ok (match other with
               | .str s => .strV s
               | _ => .undefV)

/-- `getObject(column)`: reads `this.schema[columnIndex - 1].data_type`
(the read is guarded by `getValue` having validated the index; on the null
short-circuit the source skips it, but the read is pure so hoisting it is
observationally identical) and coerces via `objectResult`. -/
def getObject (rs : DatalatheResultSet) (column : Column) :
    (Except JsError JSValue) × DatalatheResultSet :=
  match rs.resolveColumn column with
  | .error e => (.error e, rs)
  | .ok ci =>
      match rs.getValue ci with
      | .error e => (.error e, rs)
      | .ok v =>
          (objectResult v ((rs.schema.getD (ci - 1).toNat ⟨"", ""⟩).data_type),
           { rs with wasNullFlag := v == .null })

/-- `wasNull()`. -/
def wasNull (rs : DatalatheResultSet) : Bool :=
  rs.wasNullFlag

/-- `getColumnCount()`. -/
def getColumnCount (rs : DatalatheResultSet) : Nat :=
  rs.schema.length

/-- A keyed record as `toArray` builds it: a JS object, insertion-ordered. -/
abbrev JsRecord := List (String × JSValue)

/-- The body of `toArray`'s inner `for` loop, run over the remaining 1-based
column indices: `row[this.schema[i - 1].name] = this.getObject(i)`. A thrown
`getObject` propagates with the state as mutated so far. -/
def buildRowLoop (rs : DatalatheResultSet) (idxs : List Nat) (acc : JsRecord) :
    (Except JsError JsRecord) × DatalatheResultSet :=
  match idxs with
  | [] => (.ok acc, rs)
  | i :: rest =>
      match rs.getObject (.idx (i : Int)) with
      | (.error e, rs') => (.error e, rs')
      | (.ok v, rs') =>
          buildRowLoop rs' rest
            (jsAssign acc ((rs.schema.getD (i - 1) ⟨"", ""⟩).name) v)

/-- Every accessor's returned state differs from the input state in the
`_wasNull` flag at most. -/
theorem getObject_state (rs : DatalatheResultSet) (c : Column) :
    ∃ b, (rs.getObject c).2 = { rs with wasNullFlag := b } := by
  unfold getObject
  split
  · exact ⟨rs.wasNullFlag, rfl⟩
  · split
    · exact ⟨rs.wasNullFlag, rfl⟩
    · exact ⟨_, rfl⟩

theorem getString_state (rs : DatalatheResultSet) (c : Column) :
    ∃ b, (rs.getString c).2 = { rs with wasNullFlag := b } := by
  unfold getString
  split
  · exact ⟨rs.wasNullFlag, rfl⟩
  · split
    · exact ⟨rs.wasNullFlag, rfl⟩
    · exact ⟨_, rfl⟩

theorem getInt_state (rs : DatalatheResultSet) (c : Column) :
    ∃ b, (rs.getInt c).2 = { rs with wasNullFlag := b } := by
  unfold getInt
  split
  · exact ⟨rs.wasNullFlag, rfl⟩
  · split
    · exact ⟨rs.wasNullFlag, rfl⟩
    · exact ⟨_, rfl⟩

theorem getFloat_state (rs : DatalatheResultSet) (c : Column) :
    ∃ b, (rs.getFloat c).2 = { rs with wasNullFlag := b } := by
  unfold getFloat
  split
  · exact ⟨rs.wasNullFlag, rfl⟩
  · split
    · exact ⟨rs.wasNullFlag, rfl⟩
    · exact ⟨_, rfl⟩

theorem getBoolean_state (rs : DatalatheResultSet) (c : Column) :
    ∃ b, (rs.getBoolean c).2 = { rs with wasNullFlag := b } := by
  unfold getBoolean
  split
  · exact ⟨rs.wasNullFlag, rfl⟩
  · split
    · exact ⟨rs.wasNullFlag, rfl⟩
    · exact ⟨_, rfl⟩

@[simp] theorem getObject_data (rs : DatalatheResultSet) (c : Column) :
    (rs.getObject c).2.data = rs.data := by
  obtain ⟨b, h⟩ := rs.getObject_state c
  rw [h]

@[simp] theorem getObject_schema (rs : DatalatheResultSet) (c : Column) :
    (rs.getObject c).2.schema = rs.schema := by
  obtain ⟨b, h⟩ := rs.getObject_state c
  rw [h]

@[simp] theorem getObject_currentRow (rs : DatalatheResultSet) (c : Column) :
    (rs.getObject c).2.currentRow = rs.currentRow := by
  obtain ⟨b, h⟩ := rs.getObject_state c
  rw [h]

/-- The inner column loop also touches only the `_wasNull` flag. -/
theorem buildRowLoop_state (idxs : List Nat) (rs : DatalatheResultSet)
    (acc : JsRecord) :
    ∃ b, (buildRowLoop rs idxs acc).2 = { rs with wasNullFlag := b } := by
  induction idxs generalizing rs acc with
  | nil => exact ⟨rs.wasNullFlag, rfl⟩
  | cons i rest ih =>
      rw [buildRowLoop]
      obtain ⟨b0, h0⟩ := rs.getObject_state (.idx (i : Int))
      split
      · rename_i e rs' heq
        rw [heq] at h0
        exact ⟨b0, h0⟩
      · rename_i v rs' heq
        rw [heq] at h0
        replace h0 : rs' = { rs with wasNullFlag := b0 } := h0
        subst h0
        obtain ⟨b, hb⟩ :=
          ih { rs with wasNullFlag := b0 }
            (jsAssign acc ((rs.schema.getD (i - 1) ⟨"", ""⟩).name) v)
        exact ⟨b, hb⟩

/-- The `while (this.next())` loop of `toArray`: each iteration advances the
cursor via `next()`, then runs the column loop on a fresh record; a thrown
exception propagates with the state as mutated so far. Termination: `next`
increments `currentRow` and the loop continues only while it is below
`data.length`. -/
def toArrayLoop (rs : DatalatheResultSet) (acc : List JsRecord) :
    (Except JsError (List JsRecord)) × DatalatheResultSet :=
  if h : rs.next.1 = true then
    match h2 : buildRowLoop rs.next.2 (List.range' 1 rs.next.2.schema.length) [] with
    | (.error e, rs2) => (.error e, rs2)
    | (.ok row, rs2) => toArrayLoop rs2 (acc ++ [row])
  else (.ok acc, rs.next.2)
termination_by ((rs.data.length : Int) - rs.currentRow).toNat
decreasing_by
  obtain ⟨b, hb⟩ := buildRowLoop_state _ _ _
  rw [h2] at hb
  simp only [next, decide_eq_true_eq] at h hb
  rw [hb]
  simp only [next]
  omega

theorem toArrayLoop_stop (rs : DatalatheResultSet) (acc : List JsRecord)
    (h : rs.next.1 = false) :
    rs.toArrayLoop acc = (.ok acc, rs.next.2) := by
  rw [toArrayLoop]
  simp [h]

theorem toArrayLoop_err (rs : DatalatheResultSet) (acc : List JsRecord)
    (e : JsError) (rs2 : DatalatheResultSet) (h : rs.next.1 = true)
    (h2 : buildRowLoop rs.next.2 (List.range' 1 rs.next.2.schema.length) [] =
      (.error e, rs2)) :
    rs.toArrayLoop acc = (.error e, rs2) := by
  rw [toArrayLoop]
  simp only [h, dite_true]
  split
  · rename_i heq
    rw [h2] at heq
    injection heq with h1 h3
    injection h1 with h4
    rw [← h4, ← h3]
  · rename_i heq
    rw [h2] at heq
    exact absurd heq (by simp)

theorem toArrayLoop_row (rs : DatalatheResultSet) (acc : List JsRecord)
    (row : JsRecord) (rs2 : DatalatheResultSet) (h : rs.next.1 = true)
    (h2 : buildRowLoop rs.next.2 (List.range' 1 rs.next.2.schema.length) [] =
      (.ok row, rs2)) :
    rs.toArrayLoop acc = rs2.toArrayLoop (acc ++ [row]) := by
  rw [toArrayLoop]
  simp only [h, dite_true]
  split
  · rename_i heq
    rw [h2] at heq
    exact absurd heq (by simp)
  · rename_i heq
    rw [h2] at heq
    simp only [Prod.mk.injEq, Except.ok.injEq] at heq
    rw [← heq.1, ← heq.2]

/-- `toArray()`: saves the position, rewinds to before-first, walks every
row, and restores the saved position on normal completion; a thrown
exception propagates without the restore. -/
def toArray (rs : DatalatheResultSet) :
    (Except JsError (List JsRecord)) × DatalatheResultSet :=
  let saved := rs.currentRow
  match rs.beforeFirst.toArrayLoop [] with
  | (.error e, rs') => (.error e, rs')
  | (.ok rows, rs') => (.ok rows, { rs' with currentRow := saved })

end DatalatheResultSet

/-- One navigation call, as enumerated by the specification's cursor
invariant (the boolean results are discarded; only the state evolves). -/
inductive NavOp where
  | next
  | previous
  | first
  | last
  | beforeFirst
  | afterLast
  | absolute (n : Int)
  | relative (n : Int)
deriving Repr, DecidableEq

/-- Apply one navigation call to the cursor state. -/
def applyNav (rs : DatalatheResultSet) (op : NavOp) : DatalatheResultSet :=
  match op with
  | .next => rs.next.2
  | .previous => rs.previous.2
  | .first => rs.first.2
  | .last => rs.last.2
  | .beforeFirst => rs.beforeFirst
  | .afterLast => rs.afterLast
  | .absolute n => (rs.absolute n).2
  | .relative n => (rs.relative n).2

/-- Run a sequence of navigation calls. -/
def runNav (rs : DatalatheResultSet) (ops : List NavOp) : DatalatheResultSet :=
  ops.foldl applyNav rs

/-!
Streaming decoder. `DatalatheClient.parseJsonStream` (src/client.ts) pumps
the response body's byte chunks into an incremental JSON parser
(`parser.write(value)` per chunk, `parser.end()` at end of stream) and
resolves with the root value; when the body stream is unavailable it falls
back to `response.json()`, the buffered whole-body parse. The parser itself
is the external `@streamparser/json` library, not part of this repository's
sources, so it is modelled from the spec below.
-/

/-- Modelled from the spec: the decoded root value tree ("one decoded root
value") assembled by the Streaming Decoder. Numbers keep their raw text
(their IEEE-754 reading is irrelevant to the structural claims; identical
bytes give identical raw text). -/
inductive JsonValue where
  | null
  | bool (b : Bool)
  | num (raw : String)
  | str (s : String)
  | arr (items : List JsonValue)
  | obj (fields : List (String × JsonValue))

/-- Modelled from the spec: one open container on the decoder's structural
stack — an array with the items parsed so far (reversed), or an object with
the fields parsed so far (reversed) plus the key awaiting its value. -/
inductive Frame where
  | inArr (items : List JsonValue)
  | inObj (fields : List (String × JsonValue)) (pending : Option String)

/-- Escape-scanning state inside a JSON string literal. -/
inductive Esc where
  | plain
  | slash
  | hex (rem : Nat) (acc : Nat)

/-- Modelled from the spec: the decoder's scanning mode ("push state
machine emitting structural events"). `value`/`key` carry whether the
matching closer is still allowed (immediately after `[` or `{`). -/
inductive Mode where
  | value (closable : Bool)
  | key (closable : Bool)
  | colonMode
  | afterValue
  | strV (acc : List Char) (e : Esc)
  | strK (acc : List Char) (e : Esc)
  | numAcc (acc : List Char)
  | lit (target : List Char) (acc : List Char) (v : JsonValue)
  | rootDone (v : JsonValue)
  | failed

/-- JSON whitespace. -/
def jsonWs (c : Char) : Bool :=
  c = ' ' ∨ c = '\t' ∨ c = '\n' ∨ c = Char.ofNat 13

/-- Hex digit value. -/
def hexVal (c : Char) : Option Nat :=
  if c.isDigit then some (c.toNat - 48)
  else if 'a' ≤ c ∧ c ≤ 'f' then some (c.toNat - 87)
  else if 'A' ≤ c ∧ c ≤ 'F' then some (c.toNat - 55)
  else none

/-- Outcome of feeding one character to the string-literal scanner. -/
inductive StrStep where
  | more (acc : List Char) (e : Esc)
  | done (chars : List Char)
  | bad

/-- One character of a JSON string literal: plain characters accumulate
(reversed), `\` opens an escape, `\uXXXX` collects four hex digits, an
unescaped control character is malformed, `"` closes the literal. -/
def strProgress (c : Char) (acc : List Char) : Esc → StrStep
  | .plain =>
      if c = '"' then .done acc
      else if c = '\\' then .more acc .slash
      else if c.toNat < 32 then .bad
      else .more (c :: acc) .plain
  | .slash =>
      match c with
      | '"' => .more ('"' :: acc) .plain
      | '\\' => .more ('\\' :: acc) .plain
      | '/' => .more ('/' :: acc) .plain
      | 'b' => .more (Char.ofNat 8 :: acc) .plain
      | 'f' => .more (Char.ofNat 12 :: acc) .plain
      | 'n' => .more ('\n' :: acc) .plain
      | 'r' => .more (Char.ofNat 13 :: acc) .plain
      | 't' => .more ('\t' :: acc) .plain
      | 'u' => .more acc (.hex 4 0)
      | _ => .bad
  | .hex rem h =>
      match hexVal c with
      | none => .bad
      | some d =>
          let h' := h * 16 + d
          if rem = 1 then .more (Char.ofNat h' :: acc) .plain
          else .more acc (.hex (rem - 1) h')

/-- Characters that may extend a number token. -/
def numChar (c : Char) : Bool :=
  c.isDigit ∨ c = '-' ∨ c = '+' ∨ c = '.' ∨ c = 'e' ∨ c = 'E'

/-- Exponent part of the JSON number grammar (empty allowed). -/
def expTail (cs : List Char) : Bool :=
  match cs with
  | [] => true
  | e :: r =>
      if e = 'e' ∨ e = 'E' then
        let r2 := match r with
                  | '+' :: t => t
                  | '-' :: t => t
                  | _ => r
        (¬ r2.isEmpty) && r2.all Char.isDigit
      else false

/-- Fraction-then-exponent part of the JSON number grammar. -/
def fracTail (cs : List Char) : Bool :=
  match cs with
  | '.' :: r =>
      (¬ (r.takeWhile Char.isDigit).isEmpty) &&
        expTail (r.dropWhile Char.isDigit)
  | _ => expTail cs

/-- The JSON number grammar: `-? (0 | [1-9][0-9]*) frac? exp?`. -/
def validNum (cs : List Char) : Bool :=
  let cs1 := match cs with
             | '-' :: r => r
             | _ => cs
  match cs1 with
  | [] => false
  | '0' :: r => fracTail r
  | c :: _ => c.isDigit && fracTail (cs1.dropWhile Char.isDigit)

/-- A completed value is attached to the enclosing container, or becomes
the root when the stack is empty. (An object frame with no pending key
cannot be receiving a value; that branch is unreachable by construction.) -/
def completeValue (v : JsonValue) (stack : List Frame) : Mode × List Frame :=
  match stack with
  | [] => (.rootDone v, [])
  | .inArr items :: rest => (.afterValue, .inArr (v :: items) :: rest)
  | .inObj fields (some k) :: rest =>
      (.afterValue, .inObj ((k, v) :: fields) none :: rest)
  | .inObj _ none :: _ => (.failed, stack)

/-- One character of input in every mode except `numAcc` (number tokens
are terminated by their first non-number character, which `charStep`
re-dispatches here). -/
def stepCore (c : Char) (m : Mode) (stack : List Frame) : Mode × List Frame :=
  match m with
  | .failed => (.failed, stack)
  | .rootDone v => if jsonWs c then (.rootDone v, stack) else (.failed, stack)
  | .value closable =>
      if jsonWs c then (m, stack)
      else if c = '{' then (.key true, .inObj [] none :: stack)
      else if c = '[' then (.value true, .inArr [] :: stack)
      else if c = '"' then (.strV [] .plain, stack)
      else if c = '-' ∨ c.isDigit then (.numAcc [c], stack)
      else if c = 't' then (.lit "true".toList ['t'] (.bool true), stack)
      else if c = 'f' then (.lit "false".toList ['f'] (.bool false), stack)
      else if c = 'n' then (.lit "null".toList ['n'] .null, stack)
      else if c = ']' ∧ closable then
        match stack with
        | .inArr [] :: rest => completeValue (.arr []) rest
        | _ => (.failed, stack)
      else (.failed, stack)
  | .key closable =>
      if jsonWs c then (m, stack)
      else if c = '"' then (.strK [] .plain, stack)
      else if c = '}' ∧ closable then
        match stack with
        | .inObj [] none :: rest => completeValue (.obj []) rest
        | _ => (.failed, stack)
      else (.failed, stack)
  | .colonMode =>
      if jsonWs c then (m, stack)
      else if c = ':' then (.value false, stack)
      else (.failed, stack)
  | .afterValue =>
      if jsonWs c then (m, stack)
      else if c = ',' then
        match stack with
        | .inArr _ :: _ => (.value false, stack)
        | .inObj _ none :: _ => (.key false, stack)
        | _ => (.failed, stack)
      else if c = ']' then
        match stack with
        | .inArr items :: rest => completeValue (.arr items.reverse) rest
        | _ => (.failed, stack)
      else if c = '}' then
        match stack with
        | .inObj fields none :: rest => completeValue (.obj fields.reverse) rest
        | _ => (.failed, stack)
      else (.failed, stack)
  | .strV acc e =>
      match strProgress c acc e with
      | .more acc' e' => (.strV acc' e', stack)
      | .done chars => completeValue (.str ⟨chars.reverse⟩) stack
      | .bad => (.failed, stack)
  | .strK acc e =>
      match strProgress c acc e with
      | .more acc' e' => (.strK acc' e', stack)
      | .done chars =>
          match stack with
          | .inObj fields none :: rest =>
              (.colonMode, .inObj fields (some ⟨chars.reverse⟩) :: rest)
          | _ => (.failed, stack)
      | .bad => (.failed, stack)
  | .lit target acc v =>
      let acc' := acc ++ [c]
      if acc' = target then completeValue v stack
      else if acc'.isPrefixOf target then (.lit target acc' v, stack)
      else (.failed, stack)
  | .numAcc _ => (.failed, stack)

/-- One character of input: number tokens accumulate until a non-number
character arrives, which first closes the (validated) number and is then
processed in the resulting mode. -/
def charStep (c : Char) (m : Mode) (stack : List Frame) : Mode × List Frame :=
  match m with
  | .numAcc acc =>
      if numChar c then (.numAcc (c :: acc), stack)
      else if validNum acc.reverse then
        let ms := completeValue (.num ⟨acc.reverse⟩) stack
        stepCore c ms.1 ms.2
      else (.failed, stack)
  | _ => stepCore c m stack

/-- Incremental UTF-8 assembly: `clean`, or `need k acc` awaiting `k` more
continuation bytes with the partial code point `acc`. -/
inductive Utf8State where
  | clean
  | need (k : Nat) (acc : Nat)

/-- Modelled from the spec: the Streaming Decoder's whole state — scanning
mode, structural stack, and the UTF-8 assembly of the byte stream. -/
structure Decoder where
  mode : Mode
  stack : List Frame
  utf8 : Utf8State

/-- The decoder's `Idle` state. -/
def initDecoder : Decoder :=
  { mode := .value false, stack := [], utf8 := .clean }

/-- One byte of input (bytes are `Nat`s below 256): UTF-8 lead and
continuation bytes are assembled into characters, each completed character
is fed to `charStep`; a malformed byte fails the decode. -/
def byteStep (st : Decoder) (b : Nat) : Decoder :=
  match st.mode with
  | .failed => st
  | _ =>
      match st.utf8 with
      | .clean =>
          if b < 128 then
            let ms := charStep (Char.ofNat b) st.mode st.stack
            { st with mode := ms.1, stack := ms.2 }
          else if 194 ≤ b ∧ b ≤ 223 then { st with utf8 := .need 1 (b - 192) }
          else if 224 ≤ b ∧ b ≤ 239 then { st with utf8 := .need 2 (b - 224) }
          else if 240 ≤ b ∧ b ≤ 244 then { st with utf8 := .need 3 (b - 240) }
          else { st with mode := .failed }
      | .need k acc =>
          if 128 ≤ b ∧ b ≤ 191 then
            let acc' := acc * 64 + (b - 128)
            if k ≤ 1 then
              let ms := charStep (Char.ofNat acc') st.mode st.stack
              { mode := ms.1, stack := ms.2, utf8 := .clean }
            else { st with utf8 := .need (k - 1) acc' }
          else { st with mode := .failed }

/-- `parser.write(chunk)`: push one chunk of bytes. -/
def write (st : Decoder) (chunk : List Nat) : Decoder :=
  chunk.foldl byteStep st

/-- The decode failure signal (`Failed` state / rejected promise). -/
inductive DecodeError where
  | malformed
deriving Repr, DecidableEq

/-- `parser.end()`: the natural end of the byte source. A fully-closed root
completes; a top-level number token still open is closed and validated; in
every other state the body is truncated or malformed, so the decode fails. -/
def finish (st : Decoder) : Except DecodeError JsonValue :=
  match st.utf8 with
  | .need _ _ => .error .malformed
  | .clean =>
      match st.mode, st.stack with
      | .rootDone v, _ => .ok v
      | .numAcc acc, [] =>
          if validNum acc.reverse then .ok (.num ⟨acc.reverse⟩)
          else .error .malformed
      | _, _ => .error .malformed

/-- The incremental path of `parseJsonStream`: every chunk is pushed with
`parser.write`, then `parser.end()` delivers the root value. -/
def parseJsonStream (chunks : List (List Nat)) : Except DecodeError JsonValue :=
  finish (chunks.foldl write initDecoder)

/-- The buffered path (`response.json()` fallback): the entire body parsed
atomically. -/
def parseAtomic (body : List Nat) : Except DecodeError JsonValue :=
  finish (write initDecoder body)

/-! Helper lemmas. -/

namespace DatalatheResultSet

theorem previous_data (rs : DatalatheResultSet) : rs.previous.2.data = rs.data := by
  unfold previous
  split <;> rfl

theorem first_data (rs : DatalatheResultSet) : rs.first.2.data = rs.data := by
  unfold first
  split <;> rfl

theorem last_data (rs : DatalatheResultSet) : rs.last.2.data = rs.data := by
  unfold last
  split <;> rfl

theorem absolute_data (rs : DatalatheResultSet) (n : Int) :
    (rs.absolute n).2.data = rs.data := by
  unfold absolute
  dsimp only
  split <;> split <;> rfl

theorem relative_data (rs : DatalatheResultSet) (n : Int) :
    (rs.relative n).2.data = rs.data := by
  unfold relative
  exact rs.absolute_data _

end DatalatheResultSet

theorem applyNav_data (rs : DatalatheResultSet) (op : NavOp) :
    (applyNav rs op).data = rs.data := by
  cases op with
  | next => rfl
  | previous => exact rs.previous_data
  | first => exact rs.first_data
  | last => exact rs.last_data
  | beforeFirst => rfl
  | afterLast => rfl
  | absolute n => exact rs.absolute_data n
  | relative n => exact rs.relative_data n

/-- Every single navigation call keeps the position at or above `-1`. -/
theorem applyNav_lower (rs : DatalatheResultSet) (op : NavOp)
    (h : -1 ≤ rs.currentRow) : -1 ≤ (applyNav rs op).currentRow := by
  cases op <;>
    simp only [applyNav, DatalatheResultSet.next, DatalatheResultSet.previous,
      DatalatheResultSet.first, DatalatheResultSet.last,
      DatalatheResultSet.beforeFirst, DatalatheResultSet.afterLast,
      DatalatheResultSet.relative, DatalatheResultSet.absolute] <;>
    (repeat' split) <;> (try dsimp only) <;> omega

/-- Every single navigation call other than a `next()` issued at or past
after-last keeps the position at or below `rowCount`. -/
theorem applyNav_upper (rs : DatalatheResultSet) (op : NavOp)
    (hhi : rs.currentRow ≤ (rs.data.length : Int))
    (hnx : op ≠ .next ∨ rs.currentRow < (rs.data.length : Int)) :
    (applyNav rs op).currentRow ≤ ((applyNav rs op).data.length : Int) := by
  rw [applyNav_data]
  cases op with
  | next =>
      rcases hnx with hnx | hnx
      · exact absurd rfl hnx
      · simp only [applyNav, DatalatheResultSet.next]; omega
  | _ =>
      simp only [applyNav, DatalatheResultSet.previous,
        DatalatheResultSet.first, DatalatheResultSet.last,
        DatalatheResultSet.beforeFirst, DatalatheResultSet.afterLast,
        DatalatheResultSet.relative, DatalatheResultSet.absolute] <;>
      (repeat' split) <;> (try dsimp only) <;> omega

/-- Any sequence of navigation calls from a state with position at or
above `-1` ends at or above `-1`. -/
theorem runNav_lower (rs : DatalatheResultSet) (ops : List NavOp)
    (h0 : -1 ≤ rs.currentRow) : -1 ≤ (runNav rs ops).currentRow := by
  induction ops generalizing rs with
  | nil => exact h0
  | cons op rest ih => exact ih _ (applyNav_lower rs op h0)

/-- First-match characterisation of `List.findIdx?`, stated with an
explicit default element. -/
theorem findIdx?_first {α : Type} (p : α → Bool) (d : α) (l : List α)
    (i : Nat) (hi : i < l.length) (hp : p (l.getD i d) = true)
    (hfirst : ∀ j, j < i → p (l.getD j d) = false) :
    l.findIdx? p = some i := by
  induction l generalizing i with
  | nil => exact absurd hi (by simp)
  | cons a t ih =>
      rw [List.findIdx?_cons]
      cases i with
      | zero =>
          simp only [List.getD_cons_zero] at hp
          simp [hp]
      | succ i =>
          have ha : p a = false := by
            have := hfirst 0 (Nat.succ_pos i)
            simpa using this
          rw [ha]
          simp only [Bool.false_eq_true, if_false]
          have ht : t.findIdx? p = some i := by
            refine ih i ?_ ?_ ?_
            · simpa using hi
            · simpa using hp
            · intro j hj
              have := hfirst (j + 1) (by omega)
              simpa using this
          rw [List.findIdx?_succ, ht]
          rfl


/-- Position and grid after a run of consecutive `next()` calls. -/
theorem runNav_replicate_next (k : Nat) (rs : DatalatheResultSet) :
    (runNav rs (List.replicate k .next)).currentRow = rs.currentRow + k ∧
    (runNav rs (List.replicate k .next)).data = rs.data := by
  induction k generalizing rs with
  | zero => simp [runNav]
  | succ k ih =>
      rw [List.replicate_succ]
      have step : runNav rs (.next :: List.replicate k .next) =
          runNav (applyNav rs .next) (List.replicate k .next) := rfl
      rw [step]
      obtain ⟨h1, h2⟩ := ih (applyNav rs .next)
      refine ⟨?_, ?_⟩
      · rw [h1]
        simp only [applyNav, DatalatheResultSet.next]
        push_cast
        omega
      · rw [h2, applyNav_data]

/-! Concrete inputs shared by witnesses and counterexamples. -/

/-- An entry with an explicitly empty `result` grid. -/
def emptyEntry : ReportResultEntry :=
  { idx := "0", result := some (some []), data := none, error := none,
    schema := some [] }

/-- The specification's worked example: two rows, `Int32` and `Utf8`
columns, one null cell. -/
def twoRowEntry : ReportResultEntry :=
  { idx := "0",
    result := some (some [[some "1", some "John"], [some "2", none]]),
    data := none, error := none,
    schema := some [⟨"id", "Int32"⟩, ⟨"name", "Utf8"⟩] }

/-- An entry whose `result` field is present but null, with a non-null
`data` fallback. -/
def nullPrimaryEntry : ReportResultEntry :=
  { idx := "0", result := some none, data := some (some [[some "x"]]),
    error := none, schema := some [] }

/-- An entry whose `result` field is present but null, with `data` absent. -/
def nullBothEntry : ReportResultEntry :=
  { idx := "0", result := some none, data := none, error := none,
    schema := some [] }

/-! Claims. -/

/-- C1 (counterexample): from a cursor over an empty grid, two `next()`
calls drive the position to `1`, strictly above `rowCount = 0`, so the
position does not stay within `[-1, rowCount]`. -/
theorem c1_counterexample :
    ¬ ((runNav (DatalatheResultSet.fromEntry emptyEntry)
          [.next, .next]).currentRow
        ≤ ((DatalatheResultSet.fromEntry emptyEntry).rowCount : Int)) := by
  decide

/-- C1 (amended): for every cursor and every sequence of navigation calls
the position stays an integer at or above `-1`; and every single call made
from a position within `[-1, rowCount]` lands within `[-1, rowCount]`
again, except `next()` issued at or past after-last, which increments the
position beyond `rowCount`. -/
theorem c1_cursor_range_amended (entry : ReportResultEntry)
    (ops : List NavOp) (rs : DatalatheResultSet) (op : NavOp)
    (hlo : -1 ≤ rs.currentRow)
    (hhi : rs.currentRow ≤ (rs.data.length : Int))
    (hnx : op ≠ .next ∨ rs.currentRow < (rs.data.length : Int)) :
    -1 ≤ (runNav (DatalatheResultSet.fromEntry entry) ops).currentRow ∧
    (-1 ≤ (applyNav rs op).currentRow ∧
      (applyNav rs op).currentRow ≤ ((applyNav rs op).data.length : Int)) :=
  ⟨runNav_lower _ _ (le_refl _),
   applyNav_lower rs op hlo, applyNav_upper rs op hhi hnx⟩

theorem c1_cursor_range_amended_witness :
    -1 ≤ (runNav (DatalatheResultSet.fromEntry twoRowEntry)
            [.next, .absolute 5, .previous]).currentRow ∧
    (-1 ≤ (applyNav (DatalatheResultSet.fromEntry twoRowEntry)
            .afterLast).currentRow ∧
      (applyNav (DatalatheResultSet.fromEntry twoRowEntry)
            .afterLast).currentRow ≤
        ((applyNav (DatalatheResultSet.fromEntry twoRowEntry)
            .afterLast).data.length : Int)) :=
  c1_cursor_range_amended twoRowEntry [.next, .absolute 5, .previous]
    (DatalatheResultSet.fromEntry twoRowEntry) .afterLast
    (by decide) (by decide) (Or.inl (by decide))

/-- C2 (counterexample): on an empty grid, the second `next()` call fails
but leaves the position at `1`, not at `rowCount = 0` as the claim states
for failing calls. -/
theorem c2_counterexample :
    (runNav (DatalatheResultSet.fromEntry emptyEntry) [.next]).next.1 = false ∧
    (runNav (DatalatheResultSet.fromEntry emptyEntry) [.next]).next.2.currentRow
      ≠ ((DatalatheResultSet.fromEntry emptyEntry).rowCount : Int) := by
  decide

/-- C2 (amended): `next()` always advances the position by exactly one and
returns true iff the new position indexes a valid row; a failing call made
from a position at or past `rowCount` moves past `rowCount` instead of
staying at it. From before-first, each of the first `R` calls returns true,
`getRow()` after `k ≤ R` of them equals `k`, and the `(R+1)`th call
returns false and leaves the position at `R`. -/
theorem c2_next_semantics_amended (rs : DatalatheResultSet)
    (h : -1 ≤ rs.currentRow) (k : Nat) (hk : k ≤ rs.data.length) :
    (rs.next.2.currentRow = rs.currentRow + 1 ∧
      (rs.next.1 = true ↔
        0 ≤ rs.currentRow + 1 ∧ rs.currentRow + 1 < (rs.data.length : Int))) ∧
    (∀ j : Nat, j < rs.data.length →
      (runNav rs.beforeFirst (List.replicate j .next)).next.1 = true) ∧
    (runNav rs.beforeFirst (List.replicate k .next)).getRow = (k : Int) ∧
    ((runNav rs.beforeFirst
        (List.replicate rs.data.length .next)).next.1 = false ∧
      (runNav rs.beforeFirst
        (List.replicate rs.data.length .next)).next.2.currentRow
        = (rs.data.length : Int)) := by
  have hrep : ∀ j : Nat,
      (runNav rs.beforeFirst (List.replicate j .next)).currentRow =
        -1 + (j : Int) ∧
      (runNav rs.beforeFirst (List.replicate j .next)).data = rs.data := by
    intro j
    obtain ⟨h1, h2⟩ := runNav_replicate_next j rs.beforeFirst
    exact ⟨h1, h2⟩
  refine ⟨⟨rfl, ?_⟩, ?_, ?_, ?_, ?_⟩
  · simp only [DatalatheResultSet.next, decide_eq_true_eq]
    omega
  · intro j hj
    obtain ⟨h1, h2⟩ := hrep j
    simp only [DatalatheResultSet.next, h1, h2, decide_eq_true_eq]
    omega
  · obtain ⟨h1, h2⟩ := hrep k
    simp only [DatalatheResultSet.getRow, h1, h2]
    rcases Nat.eq_zero_or_pos k with hk0 | hk0
    · subst hk0
      rw [if_pos]
      · simp
      · left; simp
    · rw [if_neg]
      · omega
      · push_neg
        constructor <;> omega
  · obtain ⟨h1, h2⟩ := hrep rs.data.length
    simp only [DatalatheResultSet.next, h1, h2, decide_eq_true_eq]
    simp
  · obtain ⟨h1, h2⟩ := hrep rs.data.length
    simp only [DatalatheResultSet.next, h1]
    omega

theorem c2_next_semantics_amended_witness :
    ((runNav (DatalatheResultSet.fromEntry twoRowEntry).beforeFirst
        (List.replicate 2 .next)).next.1 = false ∧
      (runNav (DatalatheResultSet.fromEntry twoRowEntry).beforeFirst
        (List.replicate 2 .next)).next.2.currentRow = (2 : Int)) :=
  (c2_next_semantics_amended (DatalatheResultSet.fromEntry twoRowEntry)
    (by decide) 2 (by decide)).2.2.2

/-- C3 (counterexample): two entries with the same present-but-null `rows`
field (`result: null` on the wire) but different fallback fields decode to
different grids, so the fallback is consulted even though the primary field
is present — fallback is not used only on absence. -/
theorem c3_counterexample :
    nullPrimaryEntry.result = nullBothEntry.result ∧
    nullPrimaryEntry.result ≠ none ∧
    (DatalatheResultSet.fromEntry nullPrimaryEntry).data ≠
      (DatalatheResultSet.fromEntry nullBothEntry).data := by
  decide

/-- C3 (amended): the grid comes from the `rows` field (`result`) whenever
that field is present *and non-null* — including when it is an explicitly
empty list, honored literally — and the fallback field (`data`) supplies
the grid when the primary field is absent or null. -/
theorem c3_rows_resolution_amended (e e' : ReportResultEntry)
    (g d : List (List Cell))
    (hg : e.result = some (some g))
    (h1 : e'.result = none ∨ e'.result = some none)
    (hd : e'.data = some (some d)) :
    (DatalatheResultSet.fromEntry e).data = g ∧
    (DatalatheResultSet.fromEntry e').data = d := by
  constructor
  · unfold DatalatheResultSet.fromEntry
    rw [hg]
  · unfold DatalatheResultSet.fromEntry
    rcases h1 with h1 | h1 <;> rw [h1, hd]

theorem c3_rows_resolution_amended_witness :
    (DatalatheResultSet.fromEntry emptyEntry).data = [] ∧
    (DatalatheResultSet.fromEntry nullPrimaryEntry).data = [[some "x"]] :=
  c3_rows_resolution_amended emptyEntry nullPrimaryEntry [] [[some "x"]]
    rfl (Or.inr rfl) rfl

/-- C7 (counterexample): on a cursor over an empty grid at before-first,
`last()` and `absolute(-1)` both return false but leave the cursor at
different positions (`-1` versus `0`), so the two calls are not
equivalent there. -/
theorem c7_counterexample :
    ((DatalatheResultSet.fromEntry emptyEntry).absolute (-1)).1
      = (DatalatheResultSet.fromEntry emptyEntry).last.1 ∧
    ((DatalatheResultSet.fromEntry emptyEntry).absolute (-1)).2.currentRow
      ≠ (DatalatheResultSet.fromEntry emptyEntry).last.2.currentRow := by
  decide

/-- C7 (amended): `absolute(-1)` and `last()` always return the same
boolean, and on a non-empty grid they also leave the cursor in the same
state; on an empty grid `last()` leaves the cursor unchanged while
`absolute(-1)` moves it to after-last (position `0`). -/
theorem c7_absolute_last_amended (rs rs2 : DatalatheResultSet)
    (hne : rs.data ≠ []) (hemp : rs2.data = []) :
    ((rs.absolute (-1)).1 = rs.last.1 ∧ (rs.absolute (-1)).2 = rs.last.2) ∧
    ((rs2.absolute (-1)).1 = rs2.last.1 ∧
      (rs2.absolute (-1)).2.currentRow = 0 ∧ rs2.last.2 = rs2) := by
  have hlen : 0 < rs.data.length := List.length_pos.mpr hne
  have hlen2 : rs2.data.length = 0 := by rw [hemp]; rfl
  refine ⟨⟨?_, ?_⟩, ?_, ?_, ?_⟩ <;>
    simp only [DatalatheResultSet.absolute, DatalatheResultSet.last] <;>
    (repeat' split) <;>
    first
      | rfl
      | (exfalso; omega)
      | (simp only [Prod.mk.injEq, DatalatheResultSet.mk.injEq,
          true_and, and_true]; omega)
      | omega

theorem c7_absolute_last_amended_witness :
    (((DatalatheResultSet.fromEntry twoRowEntry).absolute (-1)).1
        = (DatalatheResultSet.fromEntry twoRowEntry).last.1 ∧
      ((DatalatheResultSet.fromEntry twoRowEntry).absolute (-1)).2
        = (DatalatheResultSet.fromEntry twoRowEntry).last.2) ∧
    (((DatalatheResultSet.fromEntry emptyEntry).absolute (-1)).1
        = (DatalatheResultSet.fromEntry emptyEntry).last.1 ∧
      ((DatalatheResultSet.fromEntry emptyEntry).absolute (-1)).2.currentRow
        = 0 ∧
      (DatalatheResultSet.fromEntry emptyEntry).last.2
        = DatalatheResultSet.fromEntry emptyEntry) :=
  c7_absolute_last_amended (DatalatheResultSet.fromEntry twoRowEntry)
    (DatalatheResultSet.fromEntry emptyEntry) (by decide) (by decide)

/-- C8: `findColumn` returns the 1-based index of the first column whose
name matches case-insensitively, and fails with the error carrying the
lookup key when no column matches. -/
theorem c8_findColumn (rs : DatalatheResultSet) (label bad : String)
    (i : Nat) (hi : i < rs.schema.length)
    (hmatch : toLowerJS (rs.schema.getD i ⟨"", ""⟩).name = toLowerJS label)
    (hfirst : ∀ j, j < i →
      toLowerJS (rs.schema.getD j ⟨"", ""⟩).name ≠ toLowerJS label)
    (hbad : ∀ s, s ∈ rs.schema → toLowerJS s.name ≠ toLowerJS bad) :
    rs.findColumn label = .ok ((i : Int) + 1) ∧
    rs.findColumn bad = .error (.columnNotFound bad) := by
  constructor
  · unfold DatalatheResultSet.findColumn
    rw [findIdx?_first (fun s => toLowerJS s.name == toLowerJS label) ⟨"", ""⟩
      rs.schema i hi (by simpa using hmatch)
      (fun j hj => by simpa using hfirst j hj)]
  · unfold DatalatheResultSet.findColumn
    have hnone : rs.schema.findIdx?
        (fun s => toLowerJS s.name == toLowerJS bad) = none := by
      rw [List.findIdx?_eq_none_iff]
      intro x hx
      simpa using hbad x hx
    rw [hnone]

/-- A schema with one case-variant duplicate pair, exercising
case-insensitive first-match lookup. -/
def dupNameEntry : ReportResultEntry :=
  { idx := "0", result := some (some []), data := none, error := none,
    schema := some [⟨"id", "Int32"⟩, ⟨"Name", "Utf8"⟩, ⟨"NAME", "Utf8"⟩] }

theorem c8_findColumn_witness :
    (DatalatheResultSet.fromEntry dupNameEntry).findColumn "name"
      = .ok 2 ∧
    (DatalatheResultSet.fromEntry dupNameEntry).findColumn "zzz"
      = .error (.columnNotFound "zzz") :=
  c8_findColumn (DatalatheResultSet.fromEntry dupNameEntry) "name" "zzz" 1
    (by decide) (by decide) (by decide) (by decide)

/-- C4: on a null cell every scalar accessor returns its documented default
(`null`, `0`, `0.0`, `false`, `null`) and sets the wasNull flag; a
subsequent accessor call on a non-null (string) cell resets the flag.
In JS the number literal `0` and `0.0` are one and the same value,
modelled as `JSNum.int 0`. -/
theorem c4_null_accessors (rs : DatalatheResultSet) (c c' : Int) (s : String)
    (hv : rs.getValue c = .ok .null)
    (hv' : rs.getValue c' = .ok (.str s)) :
    rs.getString (.idx c) = (.ok CellVal.null, { rs with wasNullFlag := true }) ∧
    rs.getInt (.idx c) = (.ok (JSNum.int 0), { rs with wasNullFlag := true }) ∧
    rs.getFloat (.idx c) = (.ok (JSNum.int 0), { rs with wasNullFlag := true }) ∧
    rs.getDouble (.idx c) = (.ok (JSNum.int 0), { rs with wasNullFlag := true }) ∧
    rs.getBoolean (.idx c) = (.ok false, { rs with wasNullFlag := true }) ∧
    rs.getObject (.idx c) = (.ok JSValue.nullV, { rs with wasNullFlag := true }) ∧
    ((rs.getString (.idx c)).2.getString (.idx c')).2.wasNull = false ∧
    ((rs.getString (.idx c)).2.getInt (.idx c')).2.wasNull = false ∧
    ((rs.getString (.idx c)).2.getFloat (.idx c')).2.wasNull = false ∧
    ((rs.getString (.idx c)).2.getDouble (.idx c')).2.wasNull = false ∧
    ((rs.getString (.idx c)).2.getBoolean (.idx c')).2.wasNull = false ∧
    ((rs.getString (.idx c)).2.getObject (.idx c')).2.wasNull = false := by
  have e1 : rs.getString (.idx c)
      = (.ok CellVal.null, { rs with wasNullFlag := true }) := by
    simp [DatalatheResultSet.getString, DatalatheResultSet.resolveColumn, hv]
  have hv'2 : ({ rs with wasNullFlag := true } : DatalatheResultSet).getValue c'
      = .ok (.str s) := hv'
  have hflag : (CellVal.str s == CellVal.null) = false := by
    simp
  refine ⟨e1, ?_, ?_, ?_, ?_, ?_, ?_, ?_, ?_, ?_, ?_, ?_⟩ <;>
    (try rw [e1]) <;>
    simp [DatalatheResultSet.getInt, DatalatheResultSet.getFloat,
      DatalatheResultSet.getDouble, DatalatheResultSet.getBoolean,
      DatalatheResultSet.getObject, DatalatheResultSet.getString,
      DatalatheResultSet.resolveColumn, DatalatheResultSet.wasNull,
      DatalatheResultSet.booleanResult, DatalatheResultSet.objectResult,
      hv, hv'2, hflag]

/-- The cursor of the specification's worked example positioned on its
second row (whose `name` cell is null). -/
def secondRowCursor : DatalatheResultSet :=
  runNav (DatalatheResultSet.fromEntry twoRowEntry) [.next, .next]

theorem c4_null_accessors_witness :
    secondRowCursor.getString (.idx 2)
      = (.ok CellVal.null, { secondRowCursor with wasNullFlag := true }) ∧
    ((secondRowCursor.getString (.idx 2)).2.getInt (.idx 1)).2.wasNull
      = false :=
  ⟨(c4_null_accessors secondRowCursor 2 1 "2" (by decide) (by decide)).1,
   (c4_null_accessors secondRowCursor 2 1 "2" (by decide) (by decide)).2.2.2.2.2.2.2.1⟩

/-- C9: an accessor issued with no current valid row fails with the
navigation error and returns the cursor state unchanged; an accessor whose
column index lies outside `[1, columnCount]` (issued on a valid row) fails
with the invalid-index error and also leaves the state unchanged. -/
theorem c9_accessor_errors (rs rs2 : DatalatheResultSet) (c c2 : Int)
    (hrow : rs.currentRow < 0 ∨ (rs.data.length : Int) ≤ rs.currentRow)
    (hrow2 : 0 ≤ rs2.currentRow ∧ rs2.currentRow < (rs2.data.length : Int))
    (hcol2 : c2 < 1 ∨ (rs2.schema.length : Int) < c2) :
    (rs.getString (.idx c) = (.error .noCurrentRow, rs) ∧
     rs.getInt (.idx c) = (.error .noCurrentRow, rs) ∧
     rs.getFloat (.idx c) = (.error .noCurrentRow, rs) ∧
     rs.getDouble (.idx c) = (.error .noCurrentRow, rs) ∧
     rs.getBoolean (.idx c) = (.error .noCurrentRow, rs) ∧
     rs.getObject (.idx c) = (.error .noCurrentRow, rs)) ∧
    (rs2.getString (.idx c2) = (.error (.invalidColumnIndex c2), rs2) ∧
     rs2.getInt (.idx c2) = (.error (.invalidColumnIndex c2), rs2) ∧
     rs2.getFloat (.idx c2) = (.error (.invalidColumnIndex c2), rs2) ∧
     rs2.getDouble (.idx c2) = (.error (.invalidColumnIndex c2), rs2) ∧
     rs2.getBoolean (.idx c2) = (.error (.invalidColumnIndex c2), rs2) ∧
     rs2.getObject (.idx c2) = (.error (.invalidColumnIndex c2), rs2)) := by
  have hgv : rs.getValue c = .error .noCurrentRow := by
    unfold DatalatheResultSet.getValue
    rw [if_pos hrow]
  have hgv2 : rs2.getValue c2 = .error (.invalidColumnIndex c2) := by
    unfold DatalatheResultSet.getValue
    rw [if_neg (by omega), if_pos hcol2]
  constructor <;>
    refine ⟨?_, ?_, ?_, ?_, ?_, ?_⟩ <;>
    simp [DatalatheResultSet.getString, DatalatheResultSet.getInt,
      DatalatheResultSet.getFloat, DatalatheResultSet.getDouble,
      DatalatheResultSet.getBoolean, DatalatheResultSet.getObject,
      DatalatheResultSet.resolveColumn, hgv, hgv2]

theorem c9_accessor_errors_witness :
    (DatalatheResultSet.fromEntry twoRowEntry).getString (.idx 1)
      = (.error .noCurrentRow, DatalatheResultSet.fromEntry twoRowEntry) ∧
    secondRowCursor.getObject (.idx 3)
      = (.error (.invalidColumnIndex 3), secondRowCursor) :=
  ⟨(c9_accessor_errors (DatalatheResultSet.fromEntry twoRowEntry)
      secondRowCursor 1 3 (Or.inl (by decide)) (by decide)
      (Or.inr (by decide))).1.1,
   (c9_accessor_errors (DatalatheResultSet.fromEntry twoRowEntry)
      secondRowCursor 1 3 (Or.inl (by decide)) (by decide)
      (Or.inr (by decide))).2.2.2.2.2.2⟩

/-- Pushing chunks one at a time is folding the byte step over their
concatenation: the parser state never depends on chunk boundaries. -/
theorem foldl_write (chunks : List (List Nat)) :
    ∀ st : Decoder, chunks.foldl write st = write st chunks.join := by
  induction chunks with
  | nil => intro st; rfl
  | cons c cs ih =>
      intro st
      rw [List.foldl_cons, ih (write st c)]
      show write (write st c) cs.join = write st (c ++ cs.join)
      unfold write
      rw [List.foldl_append]

/-- C5: decoding a body delivered in any number of arbitrarily-sized chunks
(including one byte at a time) produces exactly the result of parsing the
whole body atomically — the incremental path and the buffered path agree on
every byte sequence, malformed ones included. -/
theorem c5_chunk_invariance (chunks : List (List Nat)) :
    parseJsonStream chunks = parseAtomic chunks.join := by
  unfold parseJsonStream parseAtomic
  rw [foldl_write]

namespace DatalatheResultSet

/-- Evaluation of `getValue` on a valid row and in-range column. -/
theorem getValue_eval (rs : DatalatheResultSet) (r : Nat)
    (hr : rs.currentRow = (r : Int)) (hrow : r < rs.data.length)
    (i : Nat) (h1 : 1 ≤ i) (h2 : i ≤ rs.schema.length) :
    rs.getValue (i : Int) = .ok (cellVal (rs.data.getD r []) (i - 1)) := by
  have hC1 : ¬(rs.currentRow < 0 ∨ rs.currentRow ≥ (rs.data.length : Int)) := by
    rw [hr]; omega
  have hC2 : ¬((i : Int) < 1 ∨ (i : Int) > (rs.schema.length : Int)) := by
    omega
  unfold getValue
  rw [if_neg hC1, if_neg hC2]
  have e1 : rs.currentRow.toNat = r := by omega
  have e2 : ((i : Int) - 1).toNat = i - 1 := by omega
  rw [e1, e2]

/-- A cell that exists in its row never reads as `undefined`. -/
theorem cellVal_ne_undef (row : List Cell) (j : Nat) (h : j < row.length) :
    cellVal row j ≠ .undef := by
  unfold cellVal
  cases hc : row.get? j with
  | none =>
      have := List.get?_eq_none.mp hc
      omega
  | some c => cases c <;> simp

/-- The type-coercion switch succeeds on every defined (non-`undefined`)
cell value, whatever the declared type tag. -/
theorem objectResult_ok (v : CellVal) (hv : v ≠ .undef) (dt : String) :
    ∃ w, objectResult v dt = .ok w := by
  cases v with
  | null => exact ⟨.nullV, rfl⟩
  | undef => exact absurd rfl hv
  | str s =>
      unfold objectResult
      dsimp only
      split <;> exact ⟨_, rfl⟩

/-- Evaluation of `getObject` on a valid row and in-range column. -/
theorem getObject_eval (rs : DatalatheResultSet) (r i : Nat)
    (hr : rs.currentRow = (r : Int)) (hrow : r < rs.data.length)
    (h1 : 1 ≤ i) (h2 : i ≤ rs.schema.length) :
    rs.getObject (.idx (i : Int)) =
      (objectResult (cellVal (rs.data.getD r []) (i - 1))
         ((rs.schema.getD (i - 1) ⟨"", ""⟩).data_type),
       { rs with wasNullFlag :=
           cellVal (rs.data.getD r []) (i - 1) == .null }) := by
  unfold getObject resolveColumn
  dsimp only
  rw [getValue_eval rs r hr hrow i h1 h2]
  have e2 : ((i : Int) - 1).toNat = i - 1 := by omega
  rw [e2]

/-- The value `getObject` yields for the cell at 0-based row `r` and
1-based column `i` (read off a cursor normalized to that row; the error
default is unreachable at the in-range positions this is used at). -/
def objectAt (rs : DatalatheResultSet) (r i : Nat) : JSValue :=
  match ({ rs with currentRow := (r : Int), wasNullFlag := false }.getObject
      (.idx (i : Int))).1 with
  | .ok v => v
  | .error _ => .undefV

theorem objectAt_spec (rs : DatalatheResultSet) (r i : Nat)
    (hrow : r < rs.data.length) (h1 : 1 ≤ i) (h2 : i ≤ rs.schema.length)
    (hcell : i - 1 < (rs.data.getD r []).length) :
    Except.ok (rs.objectAt r i) =
      objectResult (cellVal (rs.data.getD r []) (i - 1))
        ((rs.schema.getD (i - 1) ⟨"", ""⟩).data_type) := by
  obtain ⟨w, hw⟩ := objectResult_ok _ (cellVal_ne_undef _ _ hcell)
    ((rs.schema.getD (i - 1) ⟨"", ""⟩).data_type)
  unfold objectAt
  rw [getObject_eval { rs with currentRow := (r : Int), wasNullFlag := false }
    r i rfl hrow h1 h2]
  dsimp only
  rw [hw]

/-- The keyed record `toArray` builds for 0-based row `r`: the JS-object
fold of `row[schema[i-1].name] = getObject(i)` over the 1-based columns. -/
def specRecord (rs : DatalatheResultSet) (r : Nat) : JsRecord :=
  (List.range' 1 rs.schema.length).foldl
    (fun a i => jsAssign a ((rs.schema.getD (i - 1) ⟨"", ""⟩).name)
      (rs.objectAt r i)) []

end DatalatheResultSet

namespace DatalatheResultSet

/-- Full evaluation of the column loop on a valid row all of whose
schema-addressed cells exist: it succeeds, builds exactly the fold of
JS-object assignments of per-cell `getObject` values, and (when at least
one column exists) leaves the wasNull flag reflecting the row's last
column. -/
theorem buildRowLoop_eval (k : Nat) :
    ∀ (rs : DatalatheResultSet) (r i0 : Nat) (acc : JsRecord),
    rs.currentRow = (r : Int) → r < rs.data.length →
    rs.schema.length ≤ (rs.data.getD r []).length →
    1 ≤ i0 → i0 + k = rs.schema.length + 1 →
    buildRowLoop rs (List.range' i0 k) acc =
      (.ok ((List.range' i0 k).foldl
          (fun a i => jsAssign a ((rs.schema.getD (i - 1) ⟨"", ""⟩).name)
            (rs.objectAt r i)) acc),
       if k = 0 then rs
       else { rs with wasNullFlag := (cellVal (rs.data.getD r [])
                (rs.schema.length - 1) == .null) }) := by
  induction k with
  | zero =>
      intro rs r i0 acc hr hrow hlen h1 hsum
      simp [List.range', buildRowLoop]
  | succ k ih =>
      intro rs r i0 acc hr hrow hlen h1 hsum
      have hi2 : i0 ≤ rs.schema.length := by omega
      have hcell : i0 - 1 < (rs.data.getD r []).length := by omega
      rw [List.range'_succ]
      simp only [buildRowLoop]
      rw [getObject_eval rs r i0 hr hrow h1 hi2,
        ← objectAt_spec rs r i0 hrow h1 hi2 hcell]
      dsimp only
      rw [ih { rs with wasNullFlag :=
                 cellVal (rs.data.getD r []) (i0 - 1) == .null }
          r (i0 + 1)
          (jsAssign acc ((rs.schema.getD (i0 - 1) ⟨"", ""⟩).name)
            (rs.objectAt r i0))
          hr hrow hlen (by omega)
          (show i0 + 1 + k = rs.schema.length + 1 by omega)]
      simp only [Prod.mk.injEq, List.foldl_cons]
      refine ⟨rfl, ?_⟩
      by_cases hk : k = 0
      · subst hk
        have hi0 : i0 = rs.schema.length := by omega
        subst hi0
        simp
      · simp only [if_neg hk, if_neg (Nat.succ_ne_zero k)]

end DatalatheResultSet

namespace DatalatheResultSet

/-- Full evaluation of the `toArray` row loop over a grid all of whose
schema-addressed cells exist, with `m` rows still to walk: it collects one
`specRecord` per remaining row in row order, parks the cursor at
after-last, and leaves the wasNull flag reflecting the grid's last row's
last column (unchanged when no row or no column is walked). -/
theorem toArrayLoop_eval (m : Nat) :
    ∀ (rs : DatalatheResultSet) (acc : List JsRecord),
    (∀ row ∈ rs.data, rs.schema.length ≤ row.length) →
    rs.currentRow = (rs.data.length : Int) - 1 - (m : Int) →
    m ≤ rs.data.length →
    rs.toArrayLoop acc =
      (.ok (acc ++ (List.range' (rs.data.length - m) m).map rs.specRecord),
       { rs with currentRow := (rs.data.length : Int),
                 wasNullFlag := (if m = 0 ∨ rs.schema.length = 0
                   then rs.wasNullFlag
                   else (cellVal (rs.data.getD (rs.data.length - 1) [])
                     (rs.schema.length - 1) == .null)) }) := by
  induction m with
  | zero =>
      intro rs acc hrect hr hm
      have hstop : rs.next.1 = false := by
        simp only [next, decide_eq_false_iff_not]
        omega
      rw [toArrayLoop_stop rs acc hstop]
      simp only [List.range', List.map_nil, List.append_nil,
        Prod.mk.injEq, next]
      refine ⟨trivial, ?_⟩
      rw [if_pos (Or.inl trivial)]
      have hc : rs.currentRow + 1 = (rs.data.length : Int) := by omega
      rw [hc]
  | succ m ih =>
      intro rs acc hrect hr hm
      have hnext : rs.next.1 = true := by
        simp only [next, decide_eq_true_eq]
        omega
      have hr1 : rs.next.2.currentRow =
          ((rs.data.length - m - 1 : Nat) : Int) := by
        simp only [next]
        omega
      have hrow : rs.data.length - m - 1 < rs.data.length := by omega
      have hmem : rs.data.getD (rs.data.length - m - 1) [] ∈ rs.data := by
        rw [List.getD_eq_getElem?_getD, List.getElem?_eq_getElem hrow]
        exact List.getElem_mem hrow
      have heval := buildRowLoop_eval rs.next.2.schema.length rs.next.2
        (rs.data.length - m - 1) 1 [] hr1 hrow (hrect _ hmem)
        (le_refl 1) (by omega)
      rw [toArrayLoop_row rs acc _ _ hnext heval]
      have hr2 : rs.next.2.currentRow =
          (rs.next.2.data.length : Int) - 1 - (m : Int) := by
        simp only [next]
        omega
      have hm2 : m ≤ rs.next.2.data.length := by
        show m ≤ rs.data.length
        omega
      have hrange : List.range' (rs.data.length - (m + 1)) (m + 1)
          = (rs.data.length - m - 1) :: List.range' (rs.data.length - m) m := by
        have e2 : rs.data.length - (m + 1) + 1 = rs.data.length - m := by
          omega
        have e1 : rs.data.length - (m + 1) = rs.data.length - m - 1 := by
          omega
        rw [List.range'_succ, e2, e1]
      by_cases hn : rs.next.2.schema.length = 0
      · rw [if_pos hn]
        rw [ih rs.next.2 _ hrect hr2 hm2]
        rw [hrange]
        simp only [List.map_cons, List.append_assoc, List.singleton_append,
          Prod.mk.injEq]
        constructor
        · rfl
        · have hn' : rs.schema.length = 0 := hn
          rw [if_pos (Or.inr hn), if_pos (Or.inr hn')]
          rfl
      · rw [if_neg hn]
        rw [ih { rs.next.2 with wasNullFlag :=
            (cellVal (rs.next.2.data.getD (rs.data.length - m - 1) [])
              (rs.next.2.schema.length - 1) == CellVal.null) } _ hrect hr2 hm2]
        rw [hrange]
        simp only [List.map_cons, List.append_assoc, List.singleton_append,
          Prod.mk.injEq]
        constructor
        · rfl
        · rw [if_neg (show ¬(m + 1 = 0 ∨ rs.schema.length = 0) by
            push_neg; exact ⟨by omega, hn⟩)]
          by_cases hm0 : m = 0
          · subst hm0
            rw [if_pos (Or.inl rfl)]
            rfl
          · rw [if_neg (show ¬(m = 0 ∨
                ({ rs.next.2 with wasNullFlag :=
                  (cellVal (rs.next.2.data.getD (rs.data.length - m - 1) [])
                    (rs.next.2.schema.length - 1) == CellVal.null) }
                  : DatalatheResultSet).schema.length = 0) by
              push_neg; exact ⟨hm0, hn⟩)]
            rfl

end DatalatheResultSet

/-- An entry whose single row is shorter than its schema (legal for the
wire types), with a `Boolean`-declared column. -/
def raggedEntry : ReportResultEntry :=
  { idx := "0", result := some (some [[]]), data := none, error := none,
    schema := some [⟨"b", "Boolean"⟩] }

/-- The ragged cursor parked at after-last (position `1`). -/
def raggedCursor : DatalatheResultSet :=
  (DatalatheResultSet.fromEntry raggedEntry).afterLast

/-- C6 (counterexample): on a cursor whose row is missing the cell of its
`Boolean`-declared column, `toArray()` does not return a record sequence —
the per-cell `getObject` throws (`undefined.toLowerCase()`) — and the
exception escapes before the saved position is restored, leaving the
cursor at `0` instead of its pre-call position `1`. -/
theorem c6_counterexample :
    (raggedCursor.toArray).1 = .error .typeError ∧
    (raggedCursor.toArray).2.currentRow ≠ raggedCursor.currentRow := by
  have hb : DatalatheResultSet.buildRowLoop raggedCursor.beforeFirst.next.2
      (List.range' 1 raggedCursor.beforeFirst.next.2.schema.length) []
      = (.error .typeError, ⟨[[]], [⟨"b", "Boolean"⟩], 0, false⟩) := by
    decide
  have hT : raggedCursor.beforeFirst.toArrayLoop []
      = (.error .typeError, ⟨[[]], [⟨"b", "Boolean"⟩], 0, false⟩) :=
    DatalatheResultSet.toArrayLoop_err _ _ _ _ (by decide) hb
  constructor
  · unfold DatalatheResultSet.toArray
    rw [hT]
  · unfold DatalatheResultSet.toArray
    rw [hT]
    decide

/-- C6 (amended): provided every row holds a cell for every schema column
(the wire format's expected rectangular shape), `toArray()` returns one
keyed record per row in row order — each the JS-object fold of column name
to the value `getObject` yields for that cell — and afterwards the cursor
position is exactly what it was before the call. -/
theorem c6_toArray_amended (rs : DatalatheResultSet)
    (hrect : ∀ row ∈ rs.data, rs.schema.length ≤ row.length) :
    (rs.toArray).1 = .ok ((List.range rs.data.length).map rs.specRecord) ∧
    (rs.toArray).2.currentRow = rs.currentRow := by
  have heval := DatalatheResultSet.toArrayLoop_eval rs.data.length
    rs.beforeFirst [] hrect
    (by simp only [DatalatheResultSet.beforeFirst]; omega)
    (le_refl _)
  unfold DatalatheResultSet.toArray
  rw [heval]
  constructor
  · have h0 : rs.data.length - rs.data.length = 0 := Nat.sub_self _
    show Except.ok ([] ++ (List.range' (rs.data.length - rs.data.length)
        rs.data.length).map rs.beforeFirst.specRecord) = _
    rw [h0, ← List.range_eq_range']
    simp only [List.nil_append]
    rfl
  · rfl

theorem c6_toArray_amended_witness :
    (secondRowCursor.toArray).1 =
      .ok ((List.range secondRowCursor.data.length).map
        secondRowCursor.specRecord) ∧
    (secondRowCursor.toArray).2.currentRow = secondRowCursor.currentRow :=
  c6_toArray_amended secondRowCursor (by decide)

namespace DatalatheResultSet

/-- A successful `getObject` pins down the underlying cell read and shows
the returned state is the input with the flag set from that cell. -/
theorem getObject_ok_split (rs : DatalatheResultSet) (i : Nat) (w : JSValue)
    (st : DatalatheResultSet)
    (h : rs.getObject (.idx (i : Int)) = (.ok w, st)) :
    ∃ v, rs.getValue (i : Int) = .ok v ∧
      st = { rs with wasNullFlag := v == .null } := by
  unfold getObject resolveColumn at h
  dsimp only at h
  cases hv : rs.getValue (i : Int) with
  | error e =>
      rw [hv] at h
      exact absurd h (by simp)
  | ok v =>
      rw [hv] at h
      injection h with h1 h2
      exact ⟨v, rfl, h2.symm⟩

/-- The last element of the 1-based column index range. -/
theorem getLast?_range'_one (n : Nat) (hn : 1 ≤ n) :
    (List.range' 1 n).getLast? = some n := by
  obtain ⟨k, rfl⟩ : ∃ k, n = k + 1 := ⟨n - 1, by omega⟩
  rw [List.range'_concat, List.getLast?_concat]
  congr 1
  omega

/-- When the column loop succeeds, the final state is the input state with
the wasNull flag set by the last column read (unchanged when there was no
column). -/
theorem buildRowLoop_ok_last (idxs : List Nat) :
    ∀ (rs : DatalatheResultSet) (acc rec : JsRecord)
      (rs' : DatalatheResultSet),
    buildRowLoop rs idxs acc = (.ok rec, rs') →
    (idxs = [] → rs' = rs) ∧
    (∀ iL, idxs.getLast? = some iL →
      ∃ v, rs.getValue (iL : Int) = .ok v ∧
        rs' = { rs with wasNullFlag := v == .null }) := by
  induction idxs with
  | nil =>
      intro rs acc rec rs' h
      refine ⟨fun _ => ?_, fun iL hL => absurd hL (by simp)⟩
      injection h with h1 h2
      exact h2.symm
  | cons i rest ih =>
      intro rs acc rec rs' h
      rw [buildRowLoop] at h
      cases hgo : rs.getObject (.idx (i : Int)) with
      | mk res st =>
        cases res with
        | error e =>
            rw [hgo] at h
            exact absurd h (by simp)
        | ok w =>
            rw [hgo] at h
            dsimp only at h
            obtain ⟨v0, hv0, hst⟩ := getObject_ok_split rs i w st hgo
            obtain ⟨hnil, hlast⟩ := ih st _ _ _ h
            refine ⟨fun hcontra => absurd hcontra (by simp), ?_⟩
            intro iL hL
            cases rest with
            | nil =>
                have hiL : iL = i := by
                  simp only [List.getLast?_singleton, Option.some.injEq] at hL
                  exact hL.symm
                subst hiL
                exact ⟨v0, hv0, by rw [hnil rfl, hst]⟩
            | cons r t =>
                rw [List.getLast?_cons_cons] at hL
                obtain ⟨v, hv, hrs'⟩ := hlast iL hL
                refine ⟨v, ?_, ?_⟩
                · rw [hst] at hv
                  exact hv
                · rw [hrs', hst]

/-- When the row loop succeeds having at least one row still to walk and
at least one column, the final wasNull flag reflects the grid's last row's
last column. -/
theorem toArrayLoop_ok_flag (t : Nat) :
    ∀ (rs : DatalatheResultSet) (acc recs : List JsRecord)
      (rsF : DatalatheResultSet),
    ((rs.data.length : Int) - rs.currentRow).toNat ≤ t →
    rs.toArrayLoop acc = (.ok recs, rsF) →
    -1 ≤ rs.currentRow →
    rs.currentRow + 1 < (rs.data.length : Int) →
    1 ≤ rs.schema.length →
    rsF.wasNullFlag =
      (cellVal (rs.data.getD (rs.data.length - 1) [])
        (rs.schema.length - 1) == .null) := by
  induction t with
  | zero =>
      intro rs acc recs rsF ht hloop hlo hmore hn
      omega
  | succ t ih =>
      intro rs acc recs rsF ht hloop hlo hmore hn
      have hnext : rs.next.1 = true := by
        simp only [next, decide_eq_true_eq]
        omega
      cases hb : buildRowLoop rs.next.2
          (List.range' 1 rs.next.2.schema.length) [] with
      | mk bres rs2 =>
        cases bres with
        | error e =>
            rw [toArrayLoop_err _ _ _ _ hnext hb] at hloop
            exact absurd hloop (by simp)
        | ok row =>
            rw [toArrayLoop_row _ _ _ _ hnext hb] at hloop
            have hlast := (buildRowLoop_ok_last _ _ _ _ _ hb).2
              rs.next.2.schema.length (getLast?_range'_one _ hn)
            obtain ⟨v, hgv, hrs2⟩ := hlast
            have hcr2 : rs2.currentRow = rs.currentRow + 1 := by
              rw [hrs2]
              rfl
            have hlen2 : rs2.data.length = rs.data.length := by
              rw [hrs2]
              rfl
            by_cases hend : rs2.currentRow + 1 < (rs2.data.length : Int)
            · have hflag := ih rs2 _ _ _ (by
                  rw [hcr2, hlen2]
                  omega) hloop (by omega) hend (by rw [hrs2]; exact hn)
              rw [hflag, hrs2]
              rfl
            · rw [toArrayLoop_stop _ _ (by
                  simp only [next, decide_eq_false_iff_not]
                  omega)] at hloop
              injection hloop with h1 h2
              have hF : rsF.wasNullFlag = rs2.wasNullFlag := by
                rw [← h2]
                rfl
              rw [hF, hrs2]
              have hr : rs.next.2.currentRow =
                  ((rs.data.length - 1 : Nat) : Int) := by
                show rs.currentRow + 1 = ((rs.data.length - 1 : Nat) : Int)
                omega
              have := getValue_eval rs.next.2 (rs.data.length - 1) hr
                (show rs.data.length - 1 < rs.data.length by omega)
                rs.next.2.schema.length hn (le_refl _)
              rw [this] at hgv
              injection hgv with hv2
              rw [← hv2]
              rfl

end DatalatheResultSet

/-- C10: `toArray()` restores only the cursor position, never the wasNull
flag — whenever it returns (on a non-empty grid with a non-empty schema),
the flag afterwards equals whether the last row's last column cell read as
null, regardless of the flag's value before the call. -/
theorem c10_toArray_wasNull (rs : DatalatheResultSet) (recs : List DatalatheResultSet.JsRecord)
    (hlen : 1 ≤ rs.data.length) (hsch : 1 ≤ rs.schema.length)
    (hok : (rs.toArray).1 = .ok recs) :
    (rs.toArray).2.wasNull =
      (DatalatheResultSet.cellVal (rs.data.getD (rs.data.length - 1) [])
        (rs.schema.length - 1) == .null) := by
  unfold DatalatheResultSet.toArray at hok ⊢
  cases hloop : rs.beforeFirst.toArrayLoop [] with
  | mk lres rsF =>
    cases lres with
    | error e =>
        rw [hloop] at hok
        exact absurd hok (by simp)
    | ok rows =>
        show rsF.wasNullFlag = _
        have := DatalatheResultSet.toArrayLoop_ok_flag
          (rs.data.length + 1) rs.beforeFirst [] rows rsF
          (by simp only [DatalatheResultSet.beforeFirst]; omega)
          hloop
          (by simp [DatalatheResultSet.beforeFirst])
          (by simp only [DatalatheResultSet.beforeFirst]; omega)
          hsch
        exact this

theorem c10_toArray_wasNull_witness :
    (secondRowCursor.toArray).2.wasNull =
      (DatalatheResultSet.cellVal (secondRowCursor.data.getD (secondRowCursor.data.length - 1) [])
        (secondRowCursor.schema.length - 1) == .null) := by
  have heval := DatalatheResultSet.toArrayLoop_eval
    secondRowCursor.data.length secondRowCursor.beforeFirst []
    (by decide) (by decide) (le_refl _)
  have hok : (secondRowCursor.toArray).1 =
      .ok ([] ++ (List.range' (secondRowCursor.beforeFirst.data.length -
          secondRowCursor.data.length) secondRowCursor.data.length).map
        secondRowCursor.beforeFirst.specRecord) := by
    unfold DatalatheResultSet.toArray
    rw [heval]
  exact c10_toArray_wasNull secondRowCursor _ (by decide) (by decide) hok

end Datalathe
